import Mathlib

/-!
Verification of the kea-operator reconciliation core.

This file gives a shallow embedding of the Go code of the vitistack
kea-operator repository and proves properties of it:

* the Kea DHCP management service wrapper
  (internal/services/kea/service.go: GetSubnetID, GetSubnetInfo,
  EnsureReservationForMACIP, macReservationExists, GetLeaseIPv4ForMAC,
  DeleteReservationForMAC);
* the command transport (pkg/clients/keaclient: Send response decoding,
  buildBaseURL);
* the NetworkConfiguration controller
  (internal/controller/v1alpha1/networkconfiguration_controller.go:
  processMACReservations, handleSubnetResolutionError, handleDeletion,
  and the error-aggregation tail of Reconcile).

Conventions of the embedding:
* Go strings are Lean `String`s; the Go standard-library helpers used by
  the code (strings.ToLower, strings.TrimSpace, strings.Contains,
  strings.EqualFold, strings.Join) are re-implemented below over the
  character list of the string.  TrimSpace is modelled for ASCII
  whitespace and EqualFold via per-character lowercasing; the values the
  operator handles (MAC addresses, CIDR strings, Kea texts) are ASCII,
  where these models agree exactly with Go.
* JSON numbers reaching the decoded `map[string]any` arguments become Go
  `float64` values; every numeric field the operator reads (result,
  subnet-id, cltt, option codes) is integral in the wire protocol, so
  float64 values are modelled as exact integers (constructor `vnum`).
  Values of Go type `int` (which occur when argument maps are built in
  process rather than decoded from JSON) are modelled separately
  (constructor `vint`) because the Go code type-switches on the two.
* Fallible Go functions returning (value, error) are modelled with
  `Except String` when the caller checks the error, and with an explicit
  product including an `Option String` error component when the Go
  caller reads the values regardless of the error.
-/

deriving instance DecidableEq for Except

namespace KeaOp

/-- ASCII lowercase of one character, as strings.ToLower acts on ASCII. -/
def lowerChar (c : Char) : Char :=
  if 'A' ≤ c ∧ c ≤ 'Z' then Char.ofNat (c.toNat + 32) else c

/-- Go strings.ToLower (ASCII fragment). -/
def goToLower (s : String) : String := ⟨s.data.map lowerChar⟩

/-- Characters Go unicode.IsSpace recognizes, restricted to ASCII. -/
def isGoSpace (c : Char) : Bool :=
  c = ' ' || c = '\t' || c = '\n' || c = '\r' || c = '\x0b' || c = '\x0c'

/-- Go strings.TrimSpace (ASCII fragment). -/
def goTrimSpace (s : String) : String :=
  ⟨((s.data.dropWhile isGoSpace).reverse.dropWhile isGoSpace).reverse⟩

/-- Go strings.EqualFold (ASCII fragment: case-insensitive equality). -/
def goEqFold (a b : String) : Bool := goToLower a == goToLower b

/-- Substring test on character lists: does needle occur inside hay?
Mirrors Go strings.Contains (in particular an empty needle matches). -/
def listContains (hay needle : List Char) : Bool :=
  if needle.isPrefixOf hay then true
  else
    match hay with
    | [] => false
    | _ :: t => listContains t needle

/-- Go strings.Contains. -/
def goContains (s sub : String) : Bool := listContains s.data sub.data

/-- Go strings.Join with separator. -/
def goJoin (sep : String) : List String → String
  | [] => ""
  | [x] => x
  | x :: xs => x ++ sep ++ goJoin sep xs

/-- The MAC canonicalization performed at the head of each service
operation: strings.ToLower(strings.TrimSpace(mac)). -/
def goCanon (s : String) : String := goToLower (goTrimSpace s)

/-- Model of a Go `any` value as found in decoded `map[string]any`
arguments.  `vnum` models float64 (the type JSON numbers decode to),
`vint` models Go `int`; the service code type-switches on both. -/
inductive GoVal where
  | vnull
  | vbool (b : Bool)
  | vnum (n : Int)
  | vstr (s : String)
  | vint (n : Int)
  | vlist (xs : List GoVal)
  | vmap (fields : List (String × GoVal))

/-- Lookup in a `map[string]any` modelled as an association list.
Go maps have unique keys; the first match is the value. -/
def govLookup (m : List (String × GoVal)) (k : String) : Option GoVal :=
  match m.find? (fun kv => kv.1 == k) with
  | some kv => some kv.2
  | none => none

/-- keamodels.Request (pkg/models/keamodels): command plus arguments. -/
structure GoRequest where
  command : String
  args : List (String × GoVal)

/-- keamodels.Response (pkg/models/keamodels): result, text, arguments.
A nil/absent arguments map is the empty list. -/
structure GoResponse where
  result : Int
  text : String
  args : List (String × GoVal)

/-! ## DHCP Management Service (internal/services/kea/service.go)

The service is parametrized by the transport: a pure oracle
`send : GoRequest → Except String GoResponse` standing for
`keainterface.KeaClient.Send` (an `error` return is `.error`). -/

/-- The request GetLeaseIPv4ForMAC sends first. -/
def leaseReq (mac : String) : GoRequest :=
  ⟨"lease4-get-by-hw-address", [("hw-address", .vstr mac)]⟩

/-- The reservation-get-by-id request used by macReservationExists and by
the GetLeaseIPv4ForMAC fallback. -/
def resvGetByIdReq (mac : String) : GoRequest :=
  ⟨"reservation-get-by-id",
   [("identifier-type", .vstr "hw-address"), ("identifier", .vstr mac)]⟩

/-- The data the lease-array loop of GetLeaseIPv4ForMAC extracts from one
array element: `some (ip, subnetId, cltt)` when the element is a map
whose trimmed hw-address case-folds to the queried MAC and whose
ip-address is a non-empty string (the loop skips the element otherwise).
Missing or non-numeric cltt and subnet-id read as 0, exactly as the Go
type switches leave the zero value in place. -/
def entryData (mac : String) (e : GoVal) : Option (String × Int × Int) :=
  match e with
  | .vmap m =>
    let hw := match govLookup m "hw-address" with
      | some (.vstr s) => s
      | _ => ""
    if goEqFold (goTrimSpace hw) mac then
      let ip := match govLookup m "ip-address" with
        | some (.vstr s) => s
        | _ => ""
      if ip = "" then none
      else
        let cltt : Int := match govLookup m "cltt" with
          | some (.vnum v) => v
          | some (.vint v) => v
          | _ => 0
        let sid : Int := match govLookup m "subnet-id" with
          | some (.vnum v) => v
          | some (.vint v) => v
          | _ => 0
        some (ip, sid, cltt)
    else none
  | _ => none

/-- Running best of the lease-array loop: bestIP, bestSID, bestCLTT. -/
structure LeaseBest where
  ip : String
  sid : Int
  cltt : Int
deriving DecidableEq

/-- One iteration of the lease-array loop of GetLeaseIPv4ForMAC: skip
non-matching elements, otherwise keep the entry when no best exists yet
or its cltt is strictly larger. -/
def leaseStep (mac : String) (best : LeaseBest) (e : GoVal) : LeaseBest :=
  match entryData mac e with
  | none => best
  | some (ip, sid, cltt) =>
    if best.ip = "" || cltt > best.cltt then ⟨ip, sid, cltt⟩ else best

/-- The whole lease-array loop: fold from the zero-valued locals
(bestIP = "", bestSID = 0, bestCLTT = 0). -/
def leaseFold (mac : String) (arr : List GoVal) : LeaseBest :=
  arr.foldl (leaseStep mac) ⟨"", 0, 0⟩

/-- What the primary lease4-get-by-hw-address attempt yields before the
reservation fallback: the first half of GetLeaseIPv4ForMAC.  `none`
means every early-return was missed and control reaches the fallback. -/
def primaryLeaseYield (mac : String) (r : Except String GoResponse) :
    Option (String × Int) :=
  match r with
  | .error _ => none
  | .ok resp =>
    if resp.result = 0 then
      match govLookup resp.args "leases" with
      | some (.vlist arr) =>
        let best := leaseFold mac arr
        if best.ip ≠ "" then some (best.ip, best.sid) else none
      | some (.vmap l) =>
        let ip := match govLookup l "ip-address" with
          | some (.vstr v) => v
          | _ => ""
        let sid : Int := match govLookup l "subnet-id" with
          | some (.vnum v) => v
          | some (.vint v) => v
          | _ => 0
        if ip ≠ "" then some (ip, sid) else none
      | _ => none
    else none

/-- The reservation-fallback scan of GetLeaseIPv4ForMAC over the hosts
array: return the first map element carrying a non-empty ip-address
string, with its subnet-id (0 when missing or non-numeric). -/
def hostScan : List GoVal → Option (String × Int)
  | [] => none
  | h :: t =>
    match h with
    | .vmap hm =>
      (match govLookup hm "ip-address" with
       | some (.vstr v) =>
         if v ≠ "" then
           let sid : Int := match govLookup hm "subnet-id" with
             | some (.vnum sv) => sv
             | some (.vint sv) => sv
             | _ => 0
           some (v, sid)
         else hostScan t
       | _ => hostScan t)
    | _ => hostScan t

/-- What the reservation-get-by-id fallback of GetLeaseIPv4ForMAC
yields. -/
def fallbackLeaseYield (r : Except String GoResponse) :
    Option (String × Int) :=
  match r with
  | .error _ => none
  | .ok resp =>
    if resp.result = 0 then
      match govLookup resp.args "hosts" with
      | some (.vlist hs) => hostScan hs
      | _ => none
    else none

/-- Service.GetLeaseIPv4ForMAC.  Returns (ip, subnetId, error); the Go
function returns all three and its controller caller reads ip and
subnetId while discarding the error, so the error is a component rather
than an Except wrapper. -/
def goGetLeaseIPv4ForMAC (send : GoRequest → Except String GoResponse)
    (mac : String) : String × Int × Option String :=
  let mac1 := goCanon mac
  if mac1 = "" then ("", 0, some "missing mac")
  else
    match primaryLeaseYield mac1 (send (leaseReq mac1)) with
    | some (ip, sid) => (ip, sid, none)
    | none =>
      match fallbackLeaseYield (send (resvGetByIdReq mac1)) with
      | some (ip, sid) => (ip, sid, none)
      | none => ("", 0, some ("no lease found for MAC " ++ mac1))

/-- Whether the reservation fallback of GetLeaseIPv4ForMAC can use a
hosts element: a map carrying a non-empty ip-address string. -/
def usableHostb (h : GoVal) : Bool :=
  match h with
  | .vmap hm =>
    (match govLookup hm "ip-address" with
     | some (.vstr v) => v ≠ ""
     | _ => false)
  | _ => false

/-- The stored address of a hosts element (zero value when absent). -/
def hostIpOf (h : GoVal) : String :=
  match h with
  | .vmap hm =>
    (match govLookup hm "ip-address" with
     | some (.vstr v) => v
     | _ => "")
  | _ => ""

/-- The subnet id of a hosts element (zero when absent or
non-numeric). -/
def hostSidOf (h : GoVal) : Int :=
  match h with
  | .vmap hm =>
    (match govLookup hm "subnet-id" with
     | some (.vnum sv) => sv
     | some (.vint sv) => sv
     | _ => 0)
  | _ => 0

/-- The lease-query response shapes from which the primary attempt of
GetLeaseIPv4ForMAC extracts nothing: a lease array with no usable
matching entry, a single lease object with no non-empty ip-address, any
other arguments shape, or no leases key at all. -/
def noUsableLeaseArgs (mac : String) (args : List (String × GoVal)) : Prop :=
  match govLookup args "leases" with
  | some (.vlist arr) => ∀ e ∈ arr, entryData mac e = none
  | some (.vmap l) =>
    (match govLookup l "ip-address" with
     | some (.vstr v) => v
     | _ => "") = ""
  | some _ => True
  | none => True

/-- The reservation-fallback response shapes from which the fallback of
GetLeaseIPv4ForMAC extracts nothing. -/
def noUsableHostArgs (args : List (String × GoVal)) : Prop :=
  match govLookup args "hosts" with
  | some (.vlist hs) => ∀ h ∈ hs, usableHostb h = false
  | some _ => True
  | none => True

/-- The per-subnet scan of Service.GetSubnetID over the subnets array:
first map whose "subnet" string equals the queried CIDR and whose "id"
is numeric wins; anything else is skipped (a CIDR match with a
non-numeric id falls out of the Go type switch and the loop goes on).
The `*any` arms of the Go switches are unreachable for decoded JSON
values and are not modelled. -/
def scanSubnets (cidr : String) : List GoVal → Except String Int
  | [] => .error ("no matching Kea subnet for prefix " ++ cidr)
  | v :: t =>
    match v with
    | .vmap m =>
      let subnetStr := match govLookup m "subnet" with
        | some (.vstr s) => s
        | _ => ""
      if subnetStr = cidr then
        match govLookup m "id" with
        | some (.vnum n) => .ok n
        | some (.vint n) => .ok n
        | _ => scanSubnets cidr t
      else scanSubnets cidr t
    | _ => scanSubnets cidr t

/-- The request Service.GetSubnetID sends. -/
def subnetListReq : GoRequest := ⟨"subnet4-list", []⟩

/-- Service.GetSubnetID, applied to the transport outcome of its single
subnet4-list call. -/
def goGetSubnetID (r : Except String GoResponse) (cidr : String) :
    Except String Int :=
  match r with
  | .error e => .error e
  | .ok resp =>
    if resp.result ≠ 0 then
      if goContains (goToLower resp.text) "not supported" then
        .error ("unsupported kea command subnet4-list: " ++ resp.text)
      else
        .error ("kea subnet4-list failed: " ++ resp.text)
    else
      match govLookup resp.args "subnets" with
      | some (.vlist subnets) => scanSubnets cidr subnets
      | _ => .error "unexpected subnet4-list response shape"

/-! ## Reservation existence and EnsureReservationForMACIP

For the idempotence claim the remote's reservation store must evolve
with the calls, so this part of the service is embedded against a
stateful remote: `remoteSend` below is an environment model of the Kea
host-reservation commands the service uses (it is not repository code).
The embedded service threads the remote state and additionally records
the requests it issued, so that "how many add commands were sent" is a
statement about a trace. -/

/-- One reservation as stored by the remote Kea server. -/
structure KeaHost where
  hw : String
  subnetId : Int
  ip : Option String
deriving DecidableEq

/-- How the remote presents a stored reservation inside the hosts array
of a reservation-get-by-id answer. -/
def hostToVal (h : KeaHost) : GoVal :=
  .vmap ([("hw-address", .vstr h.hw), ("subnet-id", .vnum h.subnetId)] ++
    (match h.ip with
     | some i => [("ip-address", .vstr i)]
     | none => []))

/-- Environment model of the remote Kea server for the reservation
commands: reservation-get-by-id answers success with every stored host
whose hardware address case-folds to the queried identifier;
reservation-add appends the submitted reservation and answers success.
Numeric fields of remote answers are float64 (`vnum`), as JSON decoding
produces. -/
def remoteSend (st : List KeaHost) (req : GoRequest) :
    GoResponse × List KeaHost :=
  if req.command = "reservation-get-by-id" then
    let idt := match govLookup req.args "identifier" with
      | some (.vstr s) => s
      | _ => ""
    let hs := st.filter (fun h => goEqFold h.hw idt)
    (⟨0, "", [("hosts", .vlist (hs.map hostToVal))]⟩, st)
  else if req.command = "reservation-add" then
    match govLookup req.args "reservation" with
    | some (.vmap rm) =>
      let hw := match govLookup rm "hw-address" with
        | some (.vstr s) => s
        | _ => ""
      let sid : Int := match govLookup rm "subnet-id" with
        | some (.vnum n) => n
        | some (.vint n) => n
        | _ => 0
      let ip := match govLookup rm "ip-address" with
        | some (.vstr s) => some s
        | _ => none
      (⟨0, "", []⟩, st ++ [⟨hw, sid, ip⟩])
    | _ => (⟨1, "malformed reservation", []⟩, st)
  else
    (⟨2, "not supported", []⟩, st)

/-- The primary hosts scan of macReservationExists: an element counts
when it is a map whose hw-address string case-folds to the MAC and whose
subnet-id, when present as a number, equals the queried subnet (a
present subnet-id of any non-numeric type falls out of the Go type
switch and the element still counts). -/
def existsScanHosts (sid : Int) (mac : String) : List GoVal → Bool
  | [] => false
  | h :: t =>
    match h with
    | .vmap hm =>
      (match govLookup hm "hw-address" with
       | some (.vstr hw) =>
         if goEqFold hw mac then
           match govLookup hm "subnet-id" with
           | some (.vnum v) =>
             if v ≠ sid then existsScanHosts sid mac t else true
           | some (.vint v) =>
             if v ≠ sid then existsScanHosts sid mac t else true
           | some _ => true
           | none => true
         else existsScanHosts sid mac t
       | _ => existsScanHosts sid mac t)
    | _ => existsScanHosts sid mac t

/-- The reservation-get-all fallback scan of macReservationExists: any
map element whose hw-address case-folds to the MAC counts, with no
subnet check. -/
def existsFallbackScan (mac : String) : List GoVal → Bool
  | [] => false
  | h :: t =>
    match h with
    | .vmap hm =>
      (match govLookup hm "hw-address" with
       | some (.vstr hw) =>
         if goEqFold hw mac then true else existsFallbackScan mac t
       | _ => existsFallbackScan mac t)
    | _ => existsFallbackScan mac t

/-- Service.macReservationExists run against the stateful remote model,
returning (answer, remote state after, requests issued).  The modelled
remote never fails at the transport level, so the two `err != nil`
branches of the Go code are not exercised; every other branch is
mirrored, including the "not found"/"no host"/"0 ipv4 host" text test
and the reservation-get-all fallback. -/
def macReservationExistsRun (st : List KeaHost) (mac : String)
    (subnetID : Int) : Bool × List KeaHost × List GoRequest :=
  let mac1 := goCanon mac
  if mac1 = "" then (false, st, [])
  else
    let preq := resvGetByIdReq mac1
    let (resp, st1) := remoteSend st preq
    if resp.result = 0 then
      match govLookup resp.args "hosts" with
      | some (.vlist hs) => (existsScanHosts subnetID mac1 hs, st1, [preq])
      | _ => (false, st1, [preq])
    else
      let txt := goToLower resp.text
      if goContains txt "not found" || goContains txt "no host" ||
          goContains txt "0 ipv4 host" then
        (false, st1, [preq])
      else
        let freq : GoRequest :=
          ⟨"reservation-get-all", [("subnet-id", .vint subnetID)]⟩
        let (r2, st2) := remoteSend st1 freq
        if r2.result ≠ 0 then (false, st2, [preq, freq])
        else
          match govLookup r2.args "hosts" with
          | some (.vlist hs) => (existsFallbackScan mac1 hs, st2, [preq, freq])
          | _ => (false, st2, [preq, freq])

/-- Service.EnsureReservationForMACIP run against the stateful remote
model: canonicalize the MAC, ask macReservationExists, and only when it
answers false send one reservation-add (with the trimmed IP included
only when non-empty).  Result is (created-or-error, state, trace);
`.ok false` is "already existed, nothing created". -/
def ensureReservationRun (st : List KeaHost) (mac : String)
    (subnetID : Int) (ipv4 : String) :
    Except String Bool × List KeaHost × List GoRequest :=
  let mac1 := goCanon mac
  if mac1 = "" then (.error "missing mac", st, [])
  else
    let (ex, st1, tr1) := macReservationExistsRun st mac1 subnetID
    if ex then (.ok false, st1, tr1)
    else
      let resv : List (String × GoVal) :=
        [("subnet-id", .vint subnetID), ("hw-address", .vstr mac1)] ++
        (if goTrimSpace ipv4 ≠ "" then
          [("ip-address", .vstr (goTrimSpace ipv4))]
         else [])
      let areq : GoRequest :=
        ⟨"reservation-add",
         [("reservation", .vmap resv), ("operation-target", .vstr "all")]⟩
      let (aresp, st2) := remoteSend st1 areq
      if aresp.result ≠ 0 then
        (.error ("kea reservation-add failed: " ++ aresp.text), st2,
         tr1 ++ [areq])
      else (.ok true, st2, tr1 ++ [areq])

/-- Number of reservation-add commands in a request trace. -/
def countAdds (tr : List GoRequest) : Nat :=
  (tr.filter (fun r => r.command == "reservation-add")).length

/-- Whether the remote already stores a reservation for this MAC in this
subnet, the way macReservationExists identifies one. -/
def hostExistsb (st : List KeaHost) (mac : String) (sid : Int) : Bool :=
  st.any (fun h => goEqFold h.hw mac && h.subnetId == sid)

/-! ## NetworkConfiguration controller
(internal/controller/v1alpha1/networkconfiguration_controller.go)

The controller is embedded against oracles for its collaborators:
`lease` stands for Service.GetLeaseIPv4ForMAC as seen by the controller,
which reads the returned (ip, subnetId) and discards the error with `_`;
`ens` stands for Service.EnsureReservationForMACIP, of which the
controller observes only the error.  `ipn` is the parsed expected
prefix: `none` when net.ParseCIDR failed (ipnet stays nil and the
containment check is skipped), `some f` where `f ip` is the combined
Go test "ParseIP succeeds, is IPv4, and the prefix contains it". -/

/-- The outcome of processMACReservations, extended with a ghost trace of
the EnsureReservationForMACIP invocations (mac, subnetId, ip) so that
claims about which calls were issued are statements about data. -/
structure ProcessOut where
  macToIP : List (String × String)
  macToSubnetID : List (String × Int)
  errs : List String
  trace : List (String × Int × String)

/-- processMACReservations.  Per MAC: look up a lease, prefer its subnet
id when positive, blank out a lease IP that fails the prefix check, then
ensure the reservation; an ensure error is recorded as "mac: err" and
the loop continues, otherwise the MAC is recorded in macToSubnetID and,
when an IP was kept, in macToIP. -/
def processMACReservationsRun (lease : String → String × Int)
    (ens : String → Int → String → Option String)
    (ipn : Option (String → Bool)) (subnetID : Int) :
    List String → ProcessOut
  | [] => ⟨[], [], [], []⟩
  | mac :: rest =>
    let (ip0, leaseSubnetID) := lease mac
    let sid := if leaseSubnetID > 0 then leaseSubnetID else subnetID
    let ip1 := match ipn with
      | some f => if ip0 ≠ "" then (if ¬ f ip0 then "" else ip0) else ip0
      | none => ip0
    let out := processMACReservationsRun lease ens ipn subnetID rest
    match ens mac sid ip1 with
    | some e =>
      ⟨out.macToIP, out.macToSubnetID, (mac ++ ": " ++ e) :: out.errs,
       (mac, sid, ip1) :: out.trace⟩
    | none =>
      ⟨(if ip1 ≠ "" then (mac, ip1) :: out.macToIP else out.macToIP),
       (mac, sid) :: out.macToSubnetID, out.errs,
       (mac, sid, ip1) :: out.trace⟩

/-- buildSuccessMessage of the controller. -/
def buildSuccessMessage (totalMACs resolvedIPs : Nat) : String :=
  if resolvedIPs = totalMACs then
    "All " ++ toString totalMACs ++ " MAC reservations configured with assigned IPs"
  else if resolvedIPs > 0 then
    toString totalMACs ++ " MAC reservations configured (" ++
      toString resolvedIPs ++ " with IPs, " ++
      toString (totalMACs - resolvedIPs) ++ " will get IPs on DHCP request)"
  else
    "All " ++ toString totalMACs ++
      " MAC reservations configured (IPs will be auto-allocated on DHCP request)"

/-- What a reconciliation pass writes and schedules after the MAC loop
(Reconcile, error handling and success tail): a phase, a status message
and a requeue delay in seconds. -/
structure ReconcileTail where
  phase : String
  message : String
  requeueAfterSeconds : Option Int
deriving DecidableEq

/-- The tail of Reconcile after processMACReservations: a non-empty errs
list sets phase Error with the errors joined by "; " and requeues after
30s; otherwise phase Ready with the success message and the same 30s
poll requeue. -/
def reconcileAfterMACs (errs : List String) (totalMACs resolvedIPs : Nat) :
    ReconcileTail :=
  if errs.length > 0 then
    ⟨"Error", goJoin "; " errs, some 30⟩
  else
    ⟨"Ready", buildSuccessMessage totalMACs resolvedIPs, some 30⟩

/-- handleSubnetResolutionError: always set the Error condition and the
Error phase; skip the requeue exactly when the lowercased error text
contains "unsupported kea command" or "not supported", otherwise requeue
after 15 seconds. -/
def handleSubnetResolutionErrorRun (errText : String) : ReconcileTail :=
  let txt := goToLower errText
  if goContains txt "unsupported kea command" ||
      goContains txt "not supported" then
    ⟨"Error", "Subnet resolution failed: " ++ errText, none⟩
  else
    ⟨"Error", "Subnet resolution failed: " ++ errText, some 15⟩

/-- cleanupReservations: resolve the namespace prefix, resolve the
subnet id, then issue best-effort deletions whose results are discarded;
a resolution failure returns that error. -/
def cleanupReservationsRun (prefixRes : Except String String)
    (subnetFor : String → Except String Int) (macs : List String) :
    Except String Unit :=
  match prefixRes with
  | .error e => .error e
  | .ok pfx =>
    match subnetFor pfx with
    | .error e => .error e
    | .ok _ =>
      let _ := macs
      .ok ()

/-- Observable steps of the deletion pass. -/
inductive DeletionAction where
  | logCleanupIssue (err : String)
  | removeFinalizer
deriving DecidableEq

/-- handleDeletion: run cleanup; on cleanup error only log (V(1).Info)
and fall through; then remove the finalizer; a finalizer-removal error
requeues, success ends the pass with no requeue. -/
def handleDeletionRun (cleanup : Except String Unit)
    (removeRes : Except String Unit) :
    List DeletionAction × Option Int :=
  let pre : List DeletionAction := match cleanup with
    | .error e => [.logCleanupIssue e]
    | .ok _ => []
  match removeRes with
  | .error _ => (pre ++ [.removeFinalizer], some 0)
  | .ok _ => (pre ++ [.removeFinalizer], none)

/-! ## Command transport: response decoding (keaclient.Send)

The JSON payload of a response body is modelled by `Json`; numbers are
modelled as integers (`result` is the only number the decoder itself
converts, and it is an int field).  The decode chain of Send is mirrored
attempt by attempt: strict bare array, lax bare array, strict wrapped
object, lax wrapped object, strict single object, lax single object,
then the unrecognized-format error. -/

/-- JSON values, with integral numbers. -/
inductive Json where
  | null
  | jbool (b : Bool)
  | num (n : Int)
  | str (s : String)
  | jarr (xs : List Json)
  | jobj (fields : List (String × Json))

/-- Field lookup for encoding/json struct decoding: Go matches incoming
object keys to field tags case-insensitively and processes the keys in
order, the last assignment winning; so the value is the last pair whose
lowercased key equals the (lowercase) field name. -/
def jsonField (fields : List (String × Json)) (name : String) :
    Option Json :=
  match (fields.filter (fun kv => goToLower kv.1 == name)).getLast? with
  | some kv => some kv.2
  | none => none

mutual

/-- The Go `any` value a JSON subtree decodes to, for arguments maps. -/
def jsonToGoVal : Json → GoVal
  | .null => .vnull
  | .jbool b => .vbool b
  | .num n => .vnum n
  | .str s => .vstr s
  | .jarr xs => .vlist (jsonListToGoVal xs)
  | .jobj fields => .vmap (jsonFieldsToGoVal fields)

/-- Elementwise conversion of a JSON array. -/
def jsonListToGoVal : List Json → List GoVal
  | [] => []
  | x :: t => jsonToGoVal x :: jsonListToGoVal t

/-- Entrywise conversion of a JSON object. -/
def jsonFieldsToGoVal : List (String × Json) → List (String × GoVal)
  | [] => []
  | (k, v) :: t => (k, jsonToGoVal v) :: jsonFieldsToGoVal t

end

/-- Strict json.Unmarshal into keamodels.Response: the payload must be an
object; "result" must be absent, null or a number; "text" absent, null
or a string; "arguments" absent, null or an object; unknown keys are
ignored and missing keys leave the zero value. -/
def unmarshalResponse (j : Json) : Option GoResponse :=
  match j with
  | .jobj fields =>
    let res : Option Int := match jsonField fields "result" with
      | none => some 0
      | some .null => some 0
      | some (.num n) => some n
      | some _ => none
    let txt : Option String := match jsonField fields "text" with
      | none => some ""
      | some .null => some ""
      | some (.str s) => some s
      | some _ => none
    let args : Option (List (String × GoVal)) :=
      match jsonField fields "arguments" with
      | none => some []
      | some .null => some []
      | some (.jobj fs) => some (jsonFieldsToGoVal fs)
      | some _ => none
    match res, txt, args with
    | some r, some t, some a => some ⟨r, t, a⟩
    | _, _, _ => none
  | _ => none

/-- Lax json.Unmarshal into the local laxResponse struct of Send, whose
arguments field is a json.RawMessage and therefore accepts any shape:
only result and text are constrained, and only (result, text) is kept. -/
def unmarshalLax (j : Json) : Option (Int × String) :=
  match j with
  | .jobj fields =>
    let res : Option Int := match jsonField fields "result" with
      | none => some 0
      | some .null => some 0
      | some (.num n) => some n
      | some _ => none
    let txt : Option String := match jsonField fields "text" with
      | none => some ""
      | some .null => some ""
      | some (.str s) => some s
      | some _ => none
    match res, txt with
    | some r, some t => some (r, t)
    | _, _ => none
  | _ => none

/-- Sequence of Options: all-or-nothing, as an aggregate unmarshal of a
JSON array fails when any element fails. -/
def optionAll {α β : Type} (f : α → Option β) : List α → Option (List β)
  | [] => some []
  | x :: t =>
    match f x, optionAll f t with
    | some y, some ys => some (y :: ys)
    | _, _ => none

/-- json.Unmarshal of the payload into []keamodels.Response. -/
def unmarshalRespArray (j : Json) : Option (List GoResponse) :=
  match j with
  | .jarr xs => optionAll unmarshalResponse xs
  | _ => none

/-- json.Unmarshal of the payload into []laxResponse. -/
def unmarshalLaxArray (j : Json) : Option (List (Int × String)) :=
  match j with
  | .jarr xs => optionAll unmarshalLax xs
  | _ => none

/-- json.Unmarshal into the anonymous wrapper struct with a "responses"
field ([]keamodels.Response): the payload must be an object; a missing
or null "responses" leaves the nil slice; a non-array "responses" or one
with an invalid element fails. -/
def unmarshalWrapped (j : Json) : Option (List GoResponse) :=
  match j with
  | .jobj fields =>
    match jsonField fields "responses" with
    | none => some []
    | some .null => some []
    | some (.jarr xs) => optionAll unmarshalResponse xs
    | some _ => none
  | _ => none

/-- json.Unmarshal into the wrapper struct with []laxResponse. -/
def unmarshalWrappedLax (j : Json) : Option (List (Int × String)) :=
  match j with
  | .jobj fields =>
    match jsonField fields "responses" with
    | none => some []
    | some .null => some []
    | some (.jarr xs) => optionAll unmarshalLax xs
    | some _ => none
  | _ => none

/-- The decode chain of keaclient.Send, from the already-read payload to
the returned response: each attempt is taken exactly when its unmarshal
succeeded with at least one element (the single-object attempts need
only the unmarshal to succeed), first match wins, and the fall-through
is the unrecognized-format error.  The lax attempts return a response
whose arguments stay at the zero value. -/
def keaDecode (j : Json) : Except String GoResponse :=
  match unmarshalRespArray j with
  | some (r :: _) => .ok r
  | _ =>
    match unmarshalLaxArray j with
    | some ((res, txt) :: _) => .ok ⟨res, txt, []⟩
    | _ =>
      match unmarshalWrapped j with
      | some (r :: _) => .ok r
      | _ =>
        match unmarshalWrappedLax j with
        | some ((res, txt) :: _) => .ok ⟨res, txt, []⟩
        | _ =>
          match unmarshalResponse j with
          | some r => .ok r
          | none =>
            match unmarshalLax j with
            | some (res, txt) => .ok ⟨res, txt, []⟩
            | none => .error "unrecognized Kea response format"

/-! ## Command transport: buildBaseURL (keaclient) -/

/-- keaClient configuration, restricted to the fields buildBaseURL and
the TLS-material tests read.  PEM byte slices are byte lists. -/
structure KeaClientConfig where
  baseUrl : String
  port : String
  caCertPath : String
  clientCertPath : String
  clientKeyPath : String
  caCertPEM : List Nat
  clientCertPEM : List Nat
  clientKeyPEM : List Nat
  insecureSkipVerify : Bool
  serverName : String

/-- A default-zero configuration to build concrete instances from. -/
def emptyConfig : KeaClientConfig :=
  ⟨"", "", "", "", "", [], [], [], false, ""⟩

/-- Go strings.TrimRight(s, "/"): drop every trailing slash. -/
def goTrimRightSlash (s : String) : String :=
  ⟨(s.data.reverse.dropWhile (fun c => c = '/')).reverse⟩

/-- Split a character list at the first occurrence of a marker,
returning the part before and the part after the marker. -/
def splitAtMarker (marker : List Char) : List Char → Option (List Char × List Char)
  | [] => if marker.isPrefixOf [] then some ([], []) else none
  | c :: t =>
    if marker.isPrefixOf (c :: t) then some ([], (c :: t).drop marker.length)
    else
      match splitAtMarker marker t with
      | some (a, b) => some (c :: a, b)
      | none => none

/-- keaClient.buildBaseURL.  The net/url parsing and
net.SplitHostPort/JoinHostPort round trip is modelled for endpoints of
the shape `[scheme://]host[:port][/path]` without userinfo or IPv6
brackets, which is the shape the operator's configuration carries: after
scheme normalization the authority is everything up to the first slash,
it already has a port exactly when it contains a colon, and otherwise
the configured port (when non-empty) is joined on. -/
def buildBaseURLRun (c : KeaClientConfig) : Except String String :=
  if c.baseUrl = "" then .error "base URL is empty"
  else
    let s := goTrimRightSlash c.baseUrl
    let s :=
      if goContains s "://" then s
      else if c.clientCertPath ≠ "" || c.caCertPath ≠ "" then
        "https://" ++ s
      else
        "http://" ++ s
    match splitAtMarker "://".data s.data with
    | none => .error "url parse failure"
    | some (schemeCs, restCs) =>
      let authority := restCs.takeWhile (fun ch => ch ≠ '/')
      let path := restCs.dropWhile (fun ch => ch ≠ '/')
      let host :=
        if listContains authority [':'] then authority
        else if c.port ≠ "" then authority ++ (':' :: c.port.data)
        else authority
      .ok ⟨schemeCs ++ "://".data ++ host ++ path⟩

/-! ## Theorems -/

/-- An object none of whose keys is (case-insensitively) "responses" has
no responses field for the wrapper unmarshal to find. -/
theorem jsonField_responses_none {fields : List (String × Json)}
    (h : ∀ kv ∈ fields, goToLower kv.1 ≠ "responses") :
    jsonField fields "responses" = none := by
  have hf : fields.filter (fun kv => goToLower kv.1 == "responses") = [] := by
    rw [List.filter_eq_nil_iff]
    intro kv hkv
    simpa using h kv hkv
  unfold jsonField
  rw [hf]
  rfl

/-- C7: for every JSON payload that is a single bare response object
(an object carrying no "responses" key), the Send decode chain produces
the same outcome — in particular the same (result, text) — as for the
payload wrapping the same object in a one-element array. -/
theorem keaDecode_single_eq_wrapped (fields : List (String × Json))
    (h : fields.all (fun kv => goToLower kv.1 != "responses") = true) :
    keaDecode (Json.jarr [Json.jobj fields]) = keaDecode (Json.jobj fields) := by
  have h' : ∀ kv ∈ fields, goToLower kv.1 ≠ "responses" := by
    intro kv hkv
    have := List.all_eq_true.mp h kv hkv
    simpa using this
  have hresp := jsonField_responses_none h'
  cases hs : unmarshalResponse (Json.jobj fields) with
  | some r =>
    simp [keaDecode, unmarshalRespArray, unmarshalLaxArray, unmarshalWrapped,
      unmarshalWrappedLax, optionAll, hs, hresp]
  | none =>
    cases hl : unmarshalLax (Json.jobj fields) with
    | some rt =>
      simp [keaDecode, unmarshalRespArray, unmarshalLaxArray, unmarshalWrapped,
        unmarshalWrappedLax, optionAll, hs, hl, hresp]
    | none =>
      have ha1 : unmarshalResponse (Json.jarr [Json.jobj fields]) = none := rfl
      have ha2 : unmarshalLax (Json.jarr [Json.jobj fields]) = none := rfl
      simp [keaDecode, unmarshalRespArray, unmarshalLaxArray, unmarshalWrapped,
        unmarshalWrappedLax, optionAll, hs, hl, hresp, ha1, ha2]

/-- C7 witness: a concrete bare response object decodes the same bare and
array-wrapped. -/
theorem keaDecode_single_eq_wrapped_witness :
    ([(("result" : String), Json.num 2), ("text", Json.str "malformed command"),
      ("arguments", Json.null)].all
        (fun kv => goToLower kv.1 != "responses") = true) ∧
    keaDecode (Json.jarr [Json.jobj
      [("result", Json.num 2), ("text", Json.str "malformed command"),
       ("arguments", Json.null)]]) =
    keaDecode (Json.jobj
      [("result", Json.num 2), ("text", Json.str "malformed command"),
       ("arguments", Json.null)]) :=
  ⟨by decide, keaDecode_single_eq_wrapped _ (by decide)⟩

/-- A character is not a member of a list in which the one-character
needle does not occur. -/
theorem not_mem_of_listContains_single {l : List Char} {a : Char}
    (h : listContains l [a] = false) : a ∉ l := by
  induction l with
  | nil => simp
  | cons c t ih =>
    rw [listContains] at h
    by_cases hac : a = c
    · subst hac
      simp [List.isPrefixOf] at h
    · simp [List.isPrefixOf, hac] at h
      simp [hac, ih h]

/-- A needle starting with a character absent from the hay does not
occur in the hay. -/
theorem listContains_eq_false_of_head_not_mem {l m : List Char} {a : Char}
    (h : a ∉ l) : listContains l (a :: m) = false := by
  induction l with
  | nil => simp [listContains, List.isPrefixOf]
  | cons c t ih =>
    have hac : a ≠ c := fun he => h (he ▸ List.mem_cons_self c t)
    have ht : a ∉ t := fun hm => h (List.mem_cons_of_mem c hm)
    rw [listContains]
    simp [List.isPrefixOf, hac, ih ht]

/-- dropWhile is the identity when no element satisfies the test. -/
theorem dropWhile_eq_self_of_none {p : Char → Bool} {l : List Char}
    (h : ∀ x ∈ l, p x = false) : l.dropWhile p = l := by
  cases l with
  | nil => rfl
  | cons c t =>
    rw [List.dropWhile_cons]
    simp [h c (List.mem_cons_self c t)]

/-- takeWhile is the identity when every element satisfies the test. -/
theorem takeWhile_eq_self_of_all {p : Char → Bool} {l : List Char}
    (h : ∀ x ∈ l, p x = true) : l.takeWhile p = l := by
  induction l with
  | nil => rfl
  | cons c t ih =>
    rw [List.takeWhile_cons]
    simp [h c (List.mem_cons_self c t),
      ih (fun x hx => h x (List.mem_cons_of_mem c hx))]

/-- dropWhile reaches the empty list when every element satisfies the
test. -/
theorem dropWhile_eq_nil_of_all {p : Char → Bool} {l : List Char}
    (h : ∀ x ∈ l, p x = true) : l.dropWhile p = [] := by
  induction l with
  | nil => rfl
  | cons c t ih =>
    rw [List.dropWhile_cons]
    simp [h c (List.mem_cons_self c t),
      ih (fun x hx => h x (List.mem_cons_of_mem c hx))]

/-- Appending strings appends their character lists. -/
theorem strData_append (a b : String) : (a ++ b).data = a.data ++ b.data := by
  cases a
  cases b
  rfl

/-- splitAtMarker finds the "://" marker right after a scheme name that
contains no colon. -/
theorem splitAtMarker_scheme (schemeName rest : List Char)
    (h : ':' ∉ schemeName) :
    splitAtMarker [':', '/', '/'] (schemeName ++ ':' :: '/' :: '/' :: rest) =
      some (schemeName, rest) := by
  induction schemeName with
  | nil =>
    simp [splitAtMarker, List.isPrefixOf]
  | cons c t ih =>
    have hc : ':' ≠ c := fun he => h (he ▸ List.mem_cons_self c t)
    have ht : ':' ∉ t := fun hm => h (List.mem_cons_of_mem c hm)
    have hbeq : (':' == c) = false := by
      simpa using hc
    rw [List.cons_append, splitAtMarker]
    simp [List.isPrefixOf, hbeq, ih ht]

/-- C8 counterexample: a configuration whose only TLS material is an
in-memory CA PEM and whose endpoint lacks a scheme is normalized to the
plain http scheme, not https — buildBaseURL tests only the CA and client
certificate path fields. -/
theorem buildBaseURL_pemOnly_gets_http :
    buildBaseURLRun { emptyConfig with
      baseUrl := "kea.internal", port := "8000", caCertPEM := [48, 49] } =
      .ok "http://kea.internal:8000" ∧
    ("https://".data.isPrefixOf "http://kea.internal:8000".data) = false := by
  constructor
  · rfl
  · decide

/-- C8 (amended): for a scheme-less simple-hostname endpoint, the scheme
is https exactly when a client-certificate path or a CA path is
configured (in-memory PEM material does not affect the scheme), and the
configured port is appended exactly when one is configured. -/
theorem buildBaseURL_schemePortNormalization (c : KeaClientConfig)
    (hne : c.baseUrl ≠ "")
    (hslash : goContains c.baseUrl "/" = false)
    (hcolon : goContains c.baseUrl ":" = false) :
    buildBaseURLRun c =
      .ok ((if c.clientCertPath ≠ "" || c.caCertPath ≠ "" then "https://"
            else "http://") ++ c.baseUrl ++
           (if c.port ≠ "" then ":" ++ c.port else "")) := by
  have hslashMem : '/' ∉ c.baseUrl.data := not_mem_of_listContains_single hslash
  have hcolonMem : ':' ∉ c.baseUrl.data := not_mem_of_listContains_single hcolon
  have htrim : goTrimRightSlash c.baseUrl = c.baseUrl := by
    unfold goTrimRightSlash
    rw [dropWhile_eq_self_of_none (p := fun ch => ch = '/')]
    · simp
    · intro x hx
      simp only [List.mem_reverse] at hx
      simp only [decide_eq_false_iff_not]
      exact fun he => hslashMem (he ▸ hx)
  have hnoScheme : goContains c.baseUrl "://" = false := by
    unfold goContains
    exact listContains_eq_false_of_head_not_mem hcolonMem
  have htake : List.takeWhile (fun ch => decide (ch ≠ '/')) c.baseUrl.data =
      c.baseUrl.data := by
    apply takeWhile_eq_self_of_all
    intro x hx
    simp only [decide_eq_true_eq]
    exact fun he => hslashMem (he ▸ hx)
  have hdrop : List.dropWhile (fun ch => decide (ch ≠ '/')) c.baseUrl.data =
      [] := by
    apply dropWhile_eq_nil_of_all
    intro x hx
    simp only [decide_eq_true_eq]
    exact fun he => hslashMem (he ▸ hx)
  have hcont : listContains c.baseUrl.data [':'] = false := hcolon
  have hsplitH :
      splitAtMarker "://".data (("https://" ++ c.baseUrl).data) =
        some ("https".data, c.baseUrl.data) := by
    rw [strData_append]
    exact splitAtMarker_scheme "https".data c.baseUrl.data (by decide)
  have hsplitP :
      splitAtMarker "://".data (("http://" ++ c.baseUrl).data) =
        some ("http".data, c.baseUrl.data) := by
    rw [strData_append]
    exact splitAtMarker_scheme "http".data c.baseUrl.data (by decide)
  have hdata : ∀ (sch : String) (tail : List Char),
      tail = (if c.port ≠ "" then ':' :: c.port.data else []) →
      (Except.ok ⟨sch.data ++ "://".data ++ (c.baseUrl.data ++ tail) ++ []⟩ :
        Except String String) =
      .ok ((sch ++ "://") ++ c.baseUrl ++
           (if c.port ≠ "" then ":" ++ c.port else "")) := by
    intro sch tail htail
    subst htail
    by_cases hp : c.port = ""
    · simp only [hp, ne_eq, not_true_eq_false, if_false]
      exact congrArg (fun l => Except.ok (String.mk l))
        (by simp [strData_append])
    · simp only [ne_eq, hp, not_false_eq_true, if_true]
      exact congrArg (fun l => Except.ok (String.mk l))
        (by simp [strData_append])
  unfold buildBaseURLRun
  rw [if_neg hne, htrim]
  by_cases htls :
      (decide (c.clientCertPath ≠ "") || decide (c.caCertPath ≠ "")) = true
  · simp only [hnoScheme, Bool.false_eq_true, if_false, htls, if_true]
    rw [hsplitH]
    simp only [htake, hdrop, hcont, Bool.false_eq_true, if_false]
    by_cases hp : c.port = ""
    · simpa [hp] using hdata "https" [] (by simp [hp])
    · simpa [hp] using hdata "https" (':' :: c.port.data) (by simp [hp])
  · simp only [hnoScheme, Bool.false_eq_true, if_false, if_neg htls]
    rw [hsplitP]
    simp only [htake, hdrop, hcont, Bool.false_eq_true, if_false]
    by_cases hp : c.port = ""
    · simpa [hp] using hdata "http" [] (by simp [hp])
    · simpa [hp] using hdata "http" (':' :: c.port.data) (by simp [hp])

/-- C8 witness: a configuration with a client-certificate path, a
scheme-less hostname endpoint and a configured port normalizes to
https with the port appended. -/
theorem buildBaseURL_schemePortNormalization_witness :
    buildBaseURLRun { emptyConfig with
        baseUrl := "kea.example", port := "8000",
        clientCertPath := "/certs/tls.crt", clientKeyPath := "/certs/tls.key" } =
      .ok "https://kea.example:8000" := by
  have h := buildBaseURL_schemePortNormalization
    { emptyConfig with
        baseUrl := "kea.example", port := "8000",
        clientCertPath := "/certs/tls.crt", clientKeyPath := "/certs/tls.key" }
    (by decide) (by decide) (by decide)
  simpa using h

/-- A needle that is a list-prefix of the first part occurs in the
concatenation. -/
theorem listContains_of_isPrefixOf {n a : List Char} (b : List Char)
    (h : n.isPrefixOf a = true) : listContains (a ++ b) n = true := by
  have hp : n <+: a := List.isPrefixOf_iff_prefix.mp h
  have hp2 : n <+: a ++ b := hp.trans (List.prefix_append a b)
  rw [listContains.eq_def]
  rw [List.isPrefixOf_iff_prefix.mpr hp2]
  simp

/-- Lowercasing distributes over string append. -/
theorem goToLower_append (a b : String) :
    goToLower (a ++ b) = goToLower a ++ goToLower b := by
  have : goToLower a ++ goToLower b =
      ⟨a.data.map lowerChar ++ b.data.map lowerChar⟩ :=
    String.ext (strData_append _ _)
  rw [this]
  unfold goToLower
  exact congrArg String.mk (by rw [strData_append, List.map_append])

/-- C5 counterexample: a transport-level subnet-resolution failure whose
error text happens to contain "not supported" (a realistic OS error
string) is not a remote response indicating an unsupported command, yet
the reconciler skips the requeue for it as well — the claim's "every
other subnet-resolution failure ... requeues after a fixed 15-second
delay" fails at this input. -/
theorem subnetResolution_transportError_no_requeue :
    goGetSubnetID (.error "dial tcp 192.0.2.1:8000: operation not supported")
        "192.0.2.0/24" =
      .error "dial tcp 192.0.2.1:8000: operation not supported" ∧
    (handleSubnetResolutionErrorRun
        "dial tcp 192.0.2.1:8000: operation not supported").requeueAfterSeconds
      ≠ some 15 := by
  constructor
  · rfl
  · decide

/-- C5 (amended): when subnet resolution fails on a remote non-success
response, the reconciler sets the Error phase and skips the requeue
exactly when the lowercased error text contains "unsupported kea
command" or "not supported"; in particular a remote text indicating the
command is unsupported skips the requeue, and any failure whose error
text contains neither substring requeues after 15 seconds.  (The
classification is purely textual, so a non-remote failure whose text
contains one of the substrings also skips the requeue.) -/
theorem subnetResolutionFailure_requeuePolicy (resp : GoResponse)
    (cidr : String) (hfail : resp.result ≠ 0) :
    ∃ e, goGetSubnetID (.ok resp) cidr = .error e ∧
      (handleSubnetResolutionErrorRun e).phase = "Error" ∧
      (goContains (goToLower resp.text) "not supported" = true →
        (handleSubnetResolutionErrorRun e).requeueAfterSeconds = none) ∧
      (goContains (goToLower e) "unsupported kea command" = false →
        goContains (goToLower e) "not supported" = false →
        (handleSubnetResolutionErrorRun e).requeueAfterSeconds = some 15) := by
  cases hns : goContains (goToLower resp.text) "not supported" with
  | true =>
    refine ⟨"unsupported kea command subnet4-list: " ++ resp.text, ?_, ?_, ?_, ?_⟩
    · simp [goGetSubnetID, hfail, hns]
    · simp only [handleSubnetResolutionErrorRun]
      split <;> rfl
    · intro _
      have hlow : goToLower ("unsupported kea command subnet4-list: " ++ resp.text) =
          "unsupported kea command subnet4-list: " ++ goToLower resp.text := by
        rw [goToLower_append]
        rfl
      have hcontains : goContains
          (goToLower ("unsupported kea command subnet4-list: " ++ resp.text))
          "unsupported kea command" = true := by
        rw [hlow]
        unfold goContains
        rw [strData_append]
        exact listContains_of_isPrefixOf _ (by decide)
      simp [handleSubnetResolutionErrorRun, hcontains]
    · intro h1 _
      have hlow : goToLower ("unsupported kea command subnet4-list: " ++ resp.text) =
          "unsupported kea command subnet4-list: " ++ goToLower resp.text := by
        rw [goToLower_append]
        rfl
      have hcontains : goContains
          (goToLower ("unsupported kea command subnet4-list: " ++ resp.text))
          "unsupported kea command" = true := by
        rw [hlow]
        unfold goContains
        rw [strData_append]
        exact listContains_of_isPrefixOf _ (by decide)
      simp [hcontains] at h1
  | false =>
    refine ⟨"kea subnet4-list failed: " ++ resp.text, ?_, ?_, ?_, ?_⟩
    · simp [goGetSubnetID, hfail, hns]
    · simp only [handleSubnetResolutionErrorRun]
      split <;> rfl
    · intro hcontra
      exact absurd hcontra (by simp [hns])
    · intro h1 h2
      simp [handleSubnetResolutionErrorRun, h1, h2]

/-- C5 witness: a concrete remote response whose text says the command
is not supported sets Error and schedules no requeue. -/
theorem subnetResolutionFailure_requeuePolicy_witness :
    ((2 : Int) ≠ 0) ∧
    (∃ e, goGetSubnetID
        (.ok ⟨2, "subnet4-list not supported for this dhcp engine", []⟩)
        "192.0.2.0/24" = .error e ∧
      (handleSubnetResolutionErrorRun e).phase = "Error" ∧
      (goContains
          (goToLower
            (GoResponse.text ⟨2, "subnet4-list not supported for this dhcp engine", []⟩))
          "not supported" = true →
        (handleSubnetResolutionErrorRun e).requeueAfterSeconds = none) ∧
      (goContains (goToLower e) "unsupported kea command" = false →
        goContains (goToLower e) "not supported" = false →
        (handleSubnetResolutionErrorRun e).requeueAfterSeconds = some 15)) :=
  ⟨by decide,
   subnetResolutionFailure_requeuePolicy
     ⟨2, "subnet4-list not supported for this dhcp engine", []⟩
     "192.0.2.0/24" (by decide)⟩

/-- C6: with the DHCP Management Service fully unreachable (every subnet
resolution attempt errors), the deletion pass still reaches the
finalizer removal: the cleanup failure is carried only into a logged
action, and when the cluster-store removal succeeds the pass completes
with no requeue. -/
theorem handleDeletion_removesFinalizer_whenUnreachable
    (prefixRes : Except String String)
    (subnetFor : String → Except String Int) (macs : List String)
    (hkea : ∀ p, ∃ e, subnetFor p = .error e) :
    (∃ ce, cleanupReservationsRun prefixRes subnetFor macs = .error ce) ∧
    DeletionAction.removeFinalizer ∈
      (handleDeletionRun (cleanupReservationsRun prefixRes subnetFor macs)
        (.ok ())).1 ∧
    (handleDeletionRun (cleanupReservationsRun prefixRes subnetFor macs)
        (.ok ())).2 = none := by
  have hclean : ∃ ce,
      cleanupReservationsRun prefixRes subnetFor macs = .error ce := by
    cases prefixRes with
    | error e => exact ⟨e, rfl⟩
    | ok pfx =>
      obtain ⟨e, he⟩ := hkea pfx
      exact ⟨e, by simp [cleanupReservationsRun, he]⟩
  obtain ⟨ce, hce⟩ := hclean
  rw [hce]
  exact ⟨⟨ce, rfl⟩, by simp [handleDeletionRun], by simp [handleDeletionRun]⟩

/-- C6 witness: a concrete unreachable service (connection refused on
every call) still yields finalizer removal and a completed pass. -/
theorem handleDeletion_removesFinalizer_whenUnreachable_witness :
    (∃ ce, cleanupReservationsRun (.ok "192.0.2.0/24")
        (fun _ => .error "dial tcp 192.0.2.9:8000: connection refused")
        ["aa:bb:cc:dd:ee:01"] = .error ce) ∧
    DeletionAction.removeFinalizer ∈
      (handleDeletionRun (cleanupReservationsRun (.ok "192.0.2.0/24")
          (fun _ => .error "dial tcp 192.0.2.9:8000: connection refused")
          ["aa:bb:cc:dd:ee:01"]) (.ok ())).1 ∧
    (handleDeletionRun (cleanupReservationsRun (.ok "192.0.2.0/24")
        (fun _ => .error "dial tcp 192.0.2.9:8000: connection refused")
        ["aa:bb:cc:dd:ee:01"]) (.ok ())).2 = none :=
  handleDeletion_removesFinalizer_whenUnreachable (.ok "192.0.2.0/24")
    (fun _ => .error "dial tcp 192.0.2.9:8000: connection refused")
    ["aa:bb:cc:dd:ee:01"]
    (fun _ => ⟨"dial tcp 192.0.2.9:8000: connection refused", rfl⟩)

/-- The ghost trace of processMACReservations records exactly one
EnsureReservationForMACIP call per declared MAC, in order, with the
subnet id preferring a positive lease subnet and the lease IP blanked
when it fails the prefix check. -/
theorem processMAC_trace_eq (lease : String → String × Int)
    (ens : String → Int → String → Option String)
    (ipn : Option (String → Bool)) (sid0 : Int) :
    ∀ macs : List String,
      (processMACReservationsRun lease ens ipn sid0 macs).trace =
        macs.map (fun mac =>
          (mac,
           (if (lease mac).2 > 0 then (lease mac).2 else sid0),
           (match ipn with
            | some f =>
              if (lease mac).1 ≠ "" then
                (if ¬ f (lease mac).1 then "" else (lease mac).1)
              else (lease mac).1
            | none => (lease mac).1))) := by
  intro macs
  induction macs with
  | nil => rfl
  | cons mac rest ih =>
    simp only [processMACReservationsRun, List.map_cons]
    split <;> simp [ih]

/-- The error list of processMACReservations collects exactly the failed
ensure calls of the trace, each as "mac: error". -/
theorem processMAC_errs_eq (lease : String → String × Int)
    (ens : String → Int → String → Option String)
    (ipn : Option (String → Bool)) (sid0 : Int) :
    ∀ macs : List String,
      (processMACReservationsRun lease ens ipn sid0 macs).errs =
        (processMACReservationsRun lease ens ipn sid0 macs).trace.filterMap
          (fun c => (ens c.1 c.2.1 c.2.2).map (fun e => c.1 ++ ": " ++ e)) := by
  intro macs
  induction macs with
  | nil => rfl
  | cons mac rest ih =>
    simp only [processMACReservationsRun]
    split <;> rename_i hens <;> simp at hens <;>
      simp [List.filterMap_cons, hens, ih]

/-- C4: over a non-empty declared MAC list, every MAC is attempted (the
ensure-call trace lists each declared MAC in order), the error list is
exactly the failed calls rendered "mac: error", the Error phase is set
if and only if at least one MAC's ensure call failed, and in that case
the status message is all the per-MAC errors joined into one string. -/
theorem processMAC_partialFailureAggregation (lease : String → String × Int)
    (ens : String → Int → String → Option String)
    (ipn : Option (String → Bool)) (sid0 : Int) (macs : List String)
    (totalMACs resolvedIPs : Nat) (_hne : macs ≠ []) :
    (processMACReservationsRun lease ens ipn sid0 macs).trace.map Prod.fst
        = macs ∧
    (processMACReservationsRun lease ens ipn sid0 macs).errs =
      (processMACReservationsRun lease ens ipn sid0 macs).trace.filterMap
        (fun c => (ens c.1 c.2.1 c.2.2).map (fun e => c.1 ++ ": " ++ e)) ∧
    ((reconcileAfterMACs (processMACReservationsRun lease ens ipn sid0 macs).errs
        totalMACs resolvedIPs).phase = "Error" ↔
      ∃ c ∈ (processMACReservationsRun lease ens ipn sid0 macs).trace,
        (ens c.1 c.2.1 c.2.2).isSome = true) ∧
    ((processMACReservationsRun lease ens ipn sid0 macs).errs ≠ [] →
      (reconcileAfterMACs (processMACReservationsRun lease ens ipn sid0 macs).errs
        totalMACs resolvedIPs).message =
        goJoin "; " (processMACReservationsRun lease ens ipn sid0 macs).errs) := by
  have htr := processMAC_trace_eq lease ens ipn sid0 macs
  have herr := processMAC_errs_eq lease ens ipn sid0 macs
  refine ⟨?_, herr, ?_, ?_⟩
  · rw [htr, List.map_map]
    clear htr herr _hne
    induction macs with
    | nil => rfl
    | cons m r ih2 => simp only [List.map_cons, ih2, Function.comp_apply]
  · have hphase : (reconcileAfterMACs
        (processMACReservationsRun lease ens ipn sid0 macs).errs
        totalMACs resolvedIPs).phase = "Error" ↔
        (processMACReservationsRun lease ens ipn sid0 macs).errs ≠ [] := by
      unfold reconcileAfterMACs
      cases (processMACReservationsRun lease ens ipn sid0 macs).errs with
      | nil => simp
      | cons e es => simp
    rw [hphase, herr]
    rw [ne_eq, List.filterMap_eq_nil_iff]
    push_neg
    constructor
    · rintro ⟨c, hc, hne2⟩
      refine ⟨c, hc, ?_⟩
      cases hE : ens c.1 c.2.1 c.2.2 with
      | none => exact absurd (by simp [hE]) hne2
      | some e => simp
    · rintro ⟨c, hc, hsome⟩
      refine ⟨c, hc, ?_⟩
      cases hE : ens c.1 c.2.1 c.2.2 with
      | none => rw [hE] at hsome; cases hsome
      | some e => simp [hE]
  · intro hne2
    unfold reconcileAfterMACs
    cases he : (processMACReservationsRun lease ens ipn sid0 macs).errs with
    | nil => exact absurd he hne2
    | cons e es => simp

/-- C4 witness: two MACs, the first failing, the second succeeding. -/
theorem processMAC_partialFailureAggregation_witness :
    (["aa:aa:aa:aa:aa:01", "aa:aa:aa:aa:aa:02"] : List String) ≠ [] ∧
    ((processMACReservationsRun (fun _ => ("", 0))
        (fun mac _ _ => if mac = "aa:aa:aa:aa:aa:01" then some "boom" else none)
        none 4 ["aa:aa:aa:aa:aa:01", "aa:aa:aa:aa:aa:02"]).trace.map Prod.fst
        = ["aa:aa:aa:aa:aa:01", "aa:aa:aa:aa:aa:02"] ∧
    (processMACReservationsRun (fun _ => ("", 0))
        (fun mac _ _ => if mac = "aa:aa:aa:aa:aa:01" then some "boom" else none)
        none 4 ["aa:aa:aa:aa:aa:01", "aa:aa:aa:aa:aa:02"]).errs =
      (processMACReservationsRun (fun _ => ("", 0))
        (fun mac _ _ => if mac = "aa:aa:aa:aa:aa:01" then some "boom" else none)
        none 4 ["aa:aa:aa:aa:aa:01", "aa:aa:aa:aa:aa:02"]).trace.filterMap
        (fun c => ((fun mac _ _ =>
            if mac = "aa:aa:aa:aa:aa:01" then some "boom" else none :
              String → Int → String → Option String) c.1 c.2.1 c.2.2).map
          (fun e => c.1 ++ ": " ++ e)) ∧
    ((reconcileAfterMACs (processMACReservationsRun (fun _ => ("", 0))
        (fun mac _ _ => if mac = "aa:aa:aa:aa:aa:01" then some "boom" else none)
        none 4 ["aa:aa:aa:aa:aa:01", "aa:aa:aa:aa:aa:02"]).errs 2 0).phase
        = "Error" ↔
      ∃ c ∈ (processMACReservationsRun (fun _ => ("", 0))
        (fun mac _ _ => if mac = "aa:aa:aa:aa:aa:01" then some "boom" else none)
        none 4 ["aa:aa:aa:aa:aa:01", "aa:aa:aa:aa:aa:02"]).trace,
        (((fun mac _ _ =>
            if mac = "aa:aa:aa:aa:aa:01" then some "boom" else none :
              String → Int → String → Option String)) c.1 c.2.1 c.2.2).isSome
          = true) ∧
    ((processMACReservationsRun (fun _ => ("", 0))
        (fun mac _ _ => if mac = "aa:aa:aa:aa:aa:01" then some "boom" else none)
        none 4 ["aa:aa:aa:aa:aa:01", "aa:aa:aa:aa:aa:02"]).errs ≠ [] →
      (reconcileAfterMACs (processMACReservationsRun (fun _ => ("", 0))
        (fun mac _ _ => if mac = "aa:aa:aa:aa:aa:01" then some "boom" else none)
        none 4 ["aa:aa:aa:aa:aa:01", "aa:aa:aa:aa:aa:02"]).errs 2 0).message =
        goJoin "; " (processMACReservationsRun (fun _ => ("", 0))
          (fun mac _ _ => if mac = "aa:aa:aa:aa:aa:01" then some "boom" else none)
          none 4 ["aa:aa:aa:aa:aa:01", "aa:aa:aa:aa:aa:02"]).errs)) :=
  ⟨by decide,
   processMAC_partialFailureAggregation (fun _ => ("", 0))
     (fun mac _ _ => if mac = "aa:aa:aa:aa:aa:01" then some "boom" else none)
     none 4 ["aa:aa:aa:aa:aa:01", "aa:aa:aa:aa:aa:02"] 2 0 (by decide)⟩

/-- C9: the ensure-call trace of processMACReservations shows that each
declared MAC's reservation is ensured in the lease-reported subnet
whenever the lease lookup returned a positive subnet id, and in the
subnet resolved from the namespace prefix only otherwise. -/
theorem processMAC_prefersLeaseSubnet (lease : String → String × Int)
    (ens : String → Int → String → Option String)
    (ipn : Option (String → Bool)) (sid0 : Int) (macs : List String) :
    (processMACReservationsRun lease ens ipn sid0 macs).trace =
      macs.map (fun mac =>
        (mac,
         (if (lease mac).2 > 0 then (lease mac).2 else sid0),
         (match ipn with
          | some f =>
            if (lease mac).1 ≠ "" then
              (if ¬ f (lease mac).1 then "" else (lease mac).1)
            else (lease mac).1
          | none => (lease mac).1))) :=
  processMAC_trace_eq lease ens ipn sid0 macs

/-- leaseStep ignores elements the loop skips. -/
theorem leaseStep_none {mac : String} {b : LeaseBest} {e : GoVal}
    (h : entryData mac e = none) : leaseStep mac b e = b := by
  simp [leaseStep, h]

/-- leaseStep on a usable entry updates exactly under the loop's
condition. -/
theorem leaseStep_some {mac : String} {b : LeaseBest} {e : GoVal}
    {ip : String} {sid cltt : Int}
    (h : entryData mac e = some (ip, sid, cltt)) :
    leaseStep mac b e =
      if b.ip = "" || cltt > b.cltt then ⟨ip, sid, cltt⟩ else b := by
  simp [leaseStep, h]

/-- A usable entry always carries a non-empty IP. -/
theorem entryData_ip_ne {mac : String} {e : GoVal} {ip : String}
    {sid cltt : Int} (h : entryData mac e = some (ip, sid, cltt)) :
    ip ≠ "" := by
  cases e with
  | vmap m =>
    simp only [entryData] at h
    split at h
    · split at h
      · exact Option.noConfusion h
      · rename_i hip
        simp only [Option.some.injEq, Prod.mk.injEq] at h
        rw [← h.1]
        exact hip
    · exact Option.noConfusion h
  | vnull => exact Option.noConfusion h
  | vbool b => exact Option.noConfusion h
  | vnum n => exact Option.noConfusion h
  | vstr s => exact Option.noConfusion h
  | vint n => exact Option.noConfusion h
  | vlist xs => exact Option.noConfusion h

/-- The lease loop leaves its best untouched when the best has an IP and
no remaining entry has a strictly larger cltt. -/
theorem leaseFold_preserve (mac : String) :
    ∀ (l : List GoVal) (b : LeaseBest), b.ip ≠ "" →
      (∀ f ∈ l, ∀ ip sid cltt,
        entryData mac f = some (ip, sid, cltt) → cltt ≤ b.cltt) →
      l.foldl (leaseStep mac) b = b := by
  intro l
  induction l with
  | nil => intro b _ _; rfl
  | cons h t ih =>
    intro b hbip hbound
    rw [List.foldl_cons]
    have hstep : leaseStep mac b h = b := by
      cases hE : entryData mac h with
      | none => exact leaseStep_none hE
      | some d =>
        obtain ⟨i2, s2, c2⟩ := d
        rw [leaseStep_some hE]
        have hle : c2 ≤ b.cltt :=
          hbound h (List.mem_cons_self h t) i2 s2 c2 hE
        have : (b.ip = "" || c2 > b.cltt) = false := by
          simp [hbip, not_lt.mpr hle]
        rw [this]
        simp
    rw [hstep]
    exact ih b hbip
      (fun f hf => hbound f (List.mem_cons_of_mem h hf))

/-- The lease loop reaches the entry that strictly dominates every other
usable entry, from any state the entry's cltt dominates. -/
theorem leaseFold_reach (mac : String) (e : GoVal) (ip : String)
    (sid cltt : Int) (he : entryData mac e = some (ip, sid, cltt)) :
    ∀ (l : List GoVal) (b : LeaseBest), e ∈ l →
      (∀ f ∈ l, ∀ ip2 sid2 c2,
        entryData mac f = some (ip2, sid2, c2) → f ≠ e → c2 < cltt) →
      (b.ip = "" ∨ b.cltt < cltt) →
      l.foldl (leaseStep mac) b = ⟨ip, sid, cltt⟩ := by
  intro l
  induction l with
  | nil => intro b hmem; cases hmem
  | cons h t ih =>
    intro b hmem hmax hinv
    rw [List.foldl_cons]
    by_cases hhe : h = e
    · subst hhe
      rw [leaseStep_some he]
      have hcond : (b.ip = "" || cltt > b.cltt) = true := by
        rcases hinv with h1 | h2
        · simp [h1]
        · simp [h2]
      rw [hcond]
      simp only [if_true]
      apply leaseFold_preserve mac t ⟨ip, sid, cltt⟩ (entryData_ip_ne he)
      intro f hf ip2 sid2 c2 hE
      by_cases hfe : f = h
      · subst hfe
        rw [he] at hE
        simp only [Option.some.injEq, Prod.mk.injEq] at hE
        exact le_of_eq hE.2.2.symm
      · exact le_of_lt (hmax f (List.mem_cons_of_mem h hf) ip2 sid2 c2 hE hfe)
    · have het : e ∈ t := by
        rcases List.mem_cons.mp hmem with h1 | h2
        · exact absurd h1.symm hhe
        · exact h2
      apply ih (leaseStep mac b h) het
        (fun f hf => hmax f (List.mem_cons_of_mem h hf))
      cases hE : entryData mac h with
      | none => rw [leaseStep_none hE]; exact hinv
      | some d =>
        obtain ⟨i2, s2, c2⟩ := d
        have hlt : c2 < cltt :=
          hmax h (List.mem_cons_self h t) i2 s2 c2 hE hhe
        rw [leaseStep_some hE]
        by_cases hc : (b.ip = "" || c2 > b.cltt) = true
        · rw [hc]
          simp only [if_true]
          right
          exact hlt
        · simp only [Bool.not_eq_true] at hc
          rw [hc]
          simp only [Bool.false_eq_true, if_false]
          exact hinv

/-- C2: when the remote answers the lease query with a lease array and
one entry among the exact hardware-address matches strictly dominates
every other usable match by recency timestamp, GetLeaseIPv4ForMAC
returns exactly that entry's IP and subnet id, whatever the array
order. -/
theorem getLease_picksLatest (send : GoRequest → Except String GoResponse)
    (mac : String) (resp : GoResponse) (arr : List GoVal) (e : GoVal)
    (ip : String) (sid cltt : Int)
    (hmac : goCanon mac ≠ "")
    (hsend : send (leaseReq (goCanon mac)) = .ok resp)
    (hres : resp.result = 0)
    (hleases : govLookup resp.args "leases" = some (.vlist arr))
    (hmem : e ∈ arr)
    (hdata : entryData (goCanon mac) e = some (ip, sid, cltt))
    (hmax : ∀ f ∈ arr, ∀ ip2 sid2 c2,
      entryData (goCanon mac) f = some (ip2, sid2, c2) → f ≠ e → c2 < cltt) :
    goGetLeaseIPv4ForMAC send mac = (ip, sid, none) := by
  have hfold : leaseFold (goCanon mac) arr = ⟨ip, sid, cltt⟩ :=
    leaseFold_reach (goCanon mac) e ip sid cltt hdata arr ⟨"", 0, 0⟩ hmem hmax
      (Or.inl rfl)
  have hyield : primaryLeaseYield (goCanon mac) (send (leaseReq (goCanon mac)))
      = some (ip, sid) := by
    rw [hsend]
    simp only [primaryLeaseYield]
    rw [if_pos hres, hleases]
    simp [hfold, entryData_ip_ne hdata]
  simp only [goGetLeaseIPv4ForMAC]
  rw [if_neg hmac, hyield]

/-- C2 witness: the two-entry scenario (ip A at cltt 1000, ip B at cltt
2000) returns B in both array orders. -/
theorem getLease_picksLatest_witness :
    (goCanon "00:02:12:34:56:78" ≠ "") ∧
    goGetLeaseIPv4ForMAC
      (fun r =>
        if r.command = "lease4-get-by-hw-address" then
          .ok ⟨0, "", [("leases", .vlist [
            .vmap [("hw-address", .vstr "00:02:12:34:56:78"),
                   ("ip-address", .vstr "100.64.0.50"),
                   ("subnet-id", .vnum 1), ("cltt", .vnum 1000)],
            .vmap [("hw-address", .vstr "00:02:12:34:56:78"),
                   ("ip-address", .vstr "100.64.0.123"),
                   ("subnet-id", .vnum 1), ("cltt", .vnum 2000)]])]⟩
        else .ok ⟨3, "not found", []⟩)
      "00:02:12:34:56:78" = ("100.64.0.123", 1, none) ∧
    goGetLeaseIPv4ForMAC
      (fun r =>
        if r.command = "lease4-get-by-hw-address" then
          .ok ⟨0, "", [("leases", .vlist [
            .vmap [("hw-address", .vstr "00:02:12:34:56:78"),
                   ("ip-address", .vstr "100.64.0.123"),
                   ("subnet-id", .vnum 1), ("cltt", .vnum 2000)],
            .vmap [("hw-address", .vstr "00:02:12:34:56:78"),
                   ("ip-address", .vstr "100.64.0.50"),
                   ("subnet-id", .vnum 1), ("cltt", .vnum 1000)]])]⟩
        else .ok ⟨3, "not found", []⟩)
      "00:02:12:34:56:78" = ("100.64.0.123", 1, none) := by
  have hA : entryData (goCanon "00:02:12:34:56:78")
      (GoVal.vmap [("hw-address", .vstr "00:02:12:34:56:78"),
        ("ip-address", .vstr "100.64.0.50"),
        ("subnet-id", .vnum 1), ("cltt", .vnum 1000)]) =
      some ("100.64.0.50", 1, 1000) := by decide
  refine ⟨by decide, ?_, ?_⟩
  · exact getLease_picksLatest
      (fun r =>
        if r.command = "lease4-get-by-hw-address" then
          .ok ⟨0, "", [("leases", .vlist [
            .vmap [("hw-address", .vstr "00:02:12:34:56:78"),
                   ("ip-address", .vstr "100.64.0.50"),
                   ("subnet-id", .vnum 1), ("cltt", .vnum 1000)],
            .vmap [("hw-address", .vstr "00:02:12:34:56:78"),
                   ("ip-address", .vstr "100.64.0.123"),
                   ("subnet-id", .vnum 1), ("cltt", .vnum 2000)]])]⟩
        else .ok ⟨3, "not found", []⟩)
      "00:02:12:34:56:78"
      ⟨0, "", [("leases", .vlist [
        .vmap [("hw-address", .vstr "00:02:12:34:56:78"),
               ("ip-address", .vstr "100.64.0.50"),
               ("subnet-id", .vnum 1), ("cltt", .vnum 1000)],
        .vmap [("hw-address", .vstr "00:02:12:34:56:78"),
               ("ip-address", .vstr "100.64.0.123"),
               ("subnet-id", .vnum 1), ("cltt", .vnum 2000)]])]⟩
      [GoVal.vmap [("hw-address", .vstr "00:02:12:34:56:78"),
         ("ip-address", .vstr "100.64.0.50"),
         ("subnet-id", .vnum 1), ("cltt", .vnum 1000)],
       GoVal.vmap [("hw-address", .vstr "00:02:12:34:56:78"),
         ("ip-address", .vstr "100.64.0.123"),
         ("subnet-id", .vnum 1), ("cltt", .vnum 2000)]]
      (GoVal.vmap [("hw-address", .vstr "00:02:12:34:56:78"),
         ("ip-address", .vstr "100.64.0.123"),
         ("subnet-id", .vnum 1), ("cltt", .vnum 2000)])
      "100.64.0.123" 1 2000
      (by decide) rfl (by decide) rfl
      (List.Mem.tail _ (List.Mem.head _)) (by decide)
      (by
        intro f hf ip2 sid2 c2 hE hne
        fin_cases hf
        · rw [hA] at hE
          simp only [Option.some.injEq, Prod.mk.injEq] at hE
          omega
        · exact absurd rfl hne)
  · exact getLease_picksLatest
      (fun r =>
        if r.command = "lease4-get-by-hw-address" then
          .ok ⟨0, "", [("leases", .vlist [
            .vmap [("hw-address", .vstr "00:02:12:34:56:78"),
                   ("ip-address", .vstr "100.64.0.123"),
                   ("subnet-id", .vnum 1), ("cltt", .vnum 2000)],
            .vmap [("hw-address", .vstr "00:02:12:34:56:78"),
                   ("ip-address", .vstr "100.64.0.50"),
                   ("subnet-id", .vnum 1), ("cltt", .vnum 1000)]])]⟩
        else .ok ⟨3, "not found", []⟩)
      "00:02:12:34:56:78"
      ⟨0, "", [("leases", .vlist [
        .vmap [("hw-address", .vstr "00:02:12:34:56:78"),
               ("ip-address", .vstr "100.64.0.123"),
               ("subnet-id", .vnum 1), ("cltt", .vnum 2000)],
        .vmap [("hw-address", .vstr "00:02:12:34:56:78"),
               ("ip-address", .vstr "100.64.0.50"),
               ("subnet-id", .vnum 1), ("cltt", .vnum 1000)]])]⟩
      [GoVal.vmap [("hw-address", .vstr "00:02:12:34:56:78"),
         ("ip-address", .vstr "100.64.0.123"),
         ("subnet-id", .vnum 1), ("cltt", .vnum 2000)],
       GoVal.vmap [("hw-address", .vstr "00:02:12:34:56:78"),
         ("ip-address", .vstr "100.64.0.50"),
         ("subnet-id", .vnum 1), ("cltt", .vnum 1000)]]
      (GoVal.vmap [("hw-address", .vstr "00:02:12:34:56:78"),
         ("ip-address", .vstr "100.64.0.123"),
         ("subnet-id", .vnum 1), ("cltt", .vnum 2000)])
      "100.64.0.123" 1 2000
      (by decide) rfl (by decide) rfl
      (List.Mem.head _) (by decide)
      (by
        intro f hf ip2 sid2 c2 hE hne
        fin_cases hf
        · exact absurd rfl hne
        · rw [hA] at hE
          simp only [Option.some.injEq, Prod.mk.injEq] at hE
          omega)

/-- The fallback hosts scan returns exactly the first usable element's
stored address and subnet id. -/
theorem hostScan_eq_find (hs : List GoVal) :
    hostScan hs = (hs.find? usableHostb).map (fun h => (hostIpOf h, hostSidOf h)) := by
  induction hs with
  | nil => rfl
  | cons h t ih =>
    cases h with
    | vmap hm =>
      rw [hostScan, List.find?]
      cases hip : govLookup hm "ip-address" with
      | some v =>
        cases v with
        | vstr s =>
          by_cases hsne : s ≠ ""
          · have hu : usableHostb (.vmap hm) = true := by
              simp [usableHostb, hip, hsne]
            simp only [hip, if_pos hsne, hu]
            simp [hostIpOf, hostSidOf, hip]
          · have hu : usableHostb (.vmap hm) = false := by
              simp only [ne_eq, Decidable.not_not] at hsne
              simp [usableHostb, hip, hsne]
            simp only [hip, if_neg hsne, hu, ih]
        | vnull => simp [usableHostb, hip, ih]
        | vbool b => simp [usableHostb, hip, ih]
        | vnum n => simp [usableHostb, hip, ih]
        | vint n => simp [usableHostb, hip, ih]
        | vlist xs => simp [usableHostb, hip, ih]
        | vmap fs => simp [usableHostb, hip, ih]
      | none => simp [usableHostb, hip, ih]
    | vnull => simp [hostScan, usableHostb, ih]
    | vbool b => simp [hostScan, usableHostb, ih]
    | vnum n => simp [hostScan, usableHostb, ih]
    | vstr s => simp [hostScan, usableHostb, ih]
    | vint n => simp [hostScan, usableHostb, ih]
    | vlist xs => simp [hostScan, usableHostb, ih]

/-- A lease array with no usable matching entry leaves the loop at its
zero-valued initial best. -/
theorem leaseFold_allNone (mac : String) (arr : List GoVal)
    (h : ∀ e ∈ arr, entryData mac e = none) :
    leaseFold mac arr = ⟨"", 0, 0⟩ := by
  unfold leaseFold
  induction arr with
  | nil => rfl
  | cons e t ih =>
    rw [List.foldl_cons, leaseStep_none (h e (List.mem_cons_self e t))]
    exact ih (fun f hf => h f (List.mem_cons_of_mem e hf))

/-- The primary lease attempt yields nothing when the query errored,
answered non-success, or answered without a usable lease shape. -/
theorem primaryLeaseYield_none (mac : String)
    (r : Except String GoResponse)
    (hmiss : (∃ e, r = .error e) ∨
      (∃ resp, r = .ok resp ∧
        (resp.result ≠ 0 ∨ noUsableLeaseArgs mac resp.args))) :
    primaryLeaseYield mac r = none := by
  rcases hmiss with ⟨e, he⟩ | ⟨resp, hr, hcase⟩
  · rw [he]; rfl
  · rw [hr]
    simp only [primaryLeaseYield]
    rcases hcase with hres | hnou
    · rw [if_neg hres]
    · by_cases hres : resp.result = 0
      · rw [if_pos hres]
        unfold noUsableLeaseArgs at hnou
        cases hl : govLookup resp.args "leases" with
        | none => rfl
        | some v =>
          rw [hl] at hnou
          cases v with
          | vlist arr =>
            have harr : ∀ e ∈ arr, entryData mac e = none := hnou
            have hz : leaseFold mac arr = ⟨"", 0, 0⟩ :=
              leaseFold_allNone mac arr harr
            simp [hz]
          | vmap l =>
            have hipml : (match govLookup l "ip-address" with
              | some (.vstr v) => v
              | _ => "") = "" := hnou
            simp [hipml]
          | vnull => rfl
          | vbool b => rfl
          | vnum n => rfl
          | vstr s => rfl
          | vint n => rfl
      · rw [if_neg hres]

/-- C10: when the lease query fails, answers non-success, or contains no
usable lease entry, GetLeaseIPv4ForMAC queries reservations by hardware
address and returns the first stored host carrying an address, as if it
were a lease; only when that fallback carries no address either does it
report the not-found error. -/
theorem getLease_fallsBackToReservation
    (send : GoRequest → Except String GoResponse) (mac : String)
    (resp2 : GoResponse) (hs : List GoVal)
    (hmac : goCanon mac ≠ "")
    (hmiss : (∃ e, send (leaseReq (goCanon mac)) = .error e) ∨
      (∃ resp, send (leaseReq (goCanon mac)) = .ok resp ∧
        (resp.result ≠ 0 ∨ noUsableLeaseArgs (goCanon mac) resp.args)))
    (hfb : send (resvGetByIdReq (goCanon mac)) = .ok resp2)
    (hres2 : resp2.result = 0)
    (hhosts : govLookup resp2.args "hosts" = some (.vlist hs)) :
    goGetLeaseIPv4ForMAC send mac =
      match hs.find? usableHostb with
      | some h => (hostIpOf h, hostSidOf h, none)
      | none => ("", 0, some ("no lease found for MAC " ++ goCanon mac)) := by
  have hpy := primaryLeaseYield_none (goCanon mac)
    (send (leaseReq (goCanon mac))) hmiss
  have hfby : fallbackLeaseYield (send (resvGetByIdReq (goCanon mac))) =
      (hs.find? usableHostb).map (fun h => (hostIpOf h, hostSidOf h)) := by
    rw [hfb]
    simp only [fallbackLeaseYield]
    rw [if_pos hres2, hhosts]
    exact hostScan_eq_find hs
  simp only [goGetLeaseIPv4ForMAC]
  rw [if_neg hmac, hpy, hfby]
  cases hfind : hs.find? usableHostb with
  | some h => rfl
  | none => rfl

/-- C10 witness: a failed lease query with one stored reservation
carrying an address. -/
theorem getLease_fallsBackToReservation_witness :
    (goCanon "00:11:22:33:44:55" ≠ "") ∧
    goGetLeaseIPv4ForMAC
      (fun r =>
        if r.command = "lease4-get-by-hw-address" then
          .ok ⟨3, "0 IPv4 lease(s) found.", []⟩
        else
          .ok ⟨0, "", [("hosts", .vlist [
            .vmap [("hw-address", .vstr "00:11:22:33:44:55"),
                   ("ip-address", .vstr "100.64.0.77"),
                   ("subnet-id", .vnum 5)]])]⟩)
      "00:11:22:33:44:55" =
      match ([GoVal.vmap [("hw-address", .vstr "00:11:22:33:44:55"),
               ("ip-address", .vstr "100.64.0.77"),
               ("subnet-id", .vnum 5)]].find? usableHostb) with
      | some h => (hostIpOf h, hostSidOf h, none)
      | none => ("", 0, some ("no lease found for MAC " ++
          goCanon "00:11:22:33:44:55")) :=
  ⟨by decide,
   getLease_fallsBackToReservation
     (fun r =>
       if r.command = "lease4-get-by-hw-address" then
         .ok ⟨3, "0 IPv4 lease(s) found.", []⟩
       else
         .ok ⟨0, "", [("hosts", .vlist [
           .vmap [("hw-address", .vstr "00:11:22:33:44:55"),
                  ("ip-address", .vstr "100.64.0.77"),
                  ("subnet-id", .vnum 5)]])]⟩)
     "00:11:22:33:44:55"
     ⟨0, "", [("hosts", .vlist [
       .vmap [("hw-address", .vstr "00:11:22:33:44:55"),
              ("ip-address", .vstr "100.64.0.77"),
              ("subnet-id", .vnum 5)]])]⟩
     [GoVal.vmap [("hw-address", .vstr "00:11:22:33:44:55"),
        ("ip-address", .vstr "100.64.0.77"),
        ("subnet-id", .vnum 5)]]
     (by decide)
     (Or.inr ⟨⟨3, "0 IPv4 lease(s) found.", []⟩, rfl, Or.inl (by decide)⟩)
     rfl (by decide) rfl⟩

/-- C1 counterexample: for a MAC with neither a lease nor a usable
reservation on record, GetLeaseIPv4ForMAC returns a non-nil error value
("no lease found for MAC ...") to its caller — absence is signalled
through the error return, not reported as a nil error. -/
theorem getLease_absence_is_error_value :
    (goGetLeaseIPv4ForMAC
      (fun r =>
        if r.command = "lease4-get-by-hw-address" then
          .ok ⟨3, "0 IPv4 lease(s) found.", []⟩
        else .ok ⟨3, "0 IPv4 host(s) found.", []⟩)
      "00:11:22:33:44:55").2.2 =
      some "no lease found for MAC 00:11:22:33:44:55" ∧
    (goGetLeaseIPv4ForMAC
      (fun r =>
        if r.command = "lease4-get-by-hw-address" then
          .ok ⟨3, "0 IPv4 lease(s) found.", []⟩
        else .ok ⟨3, "0 IPv4 host(s) found.", []⟩)
      "00:11:22:33:44:55").2.2 ≠ none := by
  constructor
  · rfl
  · decide

/-- C1 (amended): for every MAC for which the remote has neither a lease
nor a usable reservation on record, GetLeaseIPv4ForMAC returns the empty
IP, subnet id 0 and a non-nil "no lease found" error; the benign
treatment of absence lives in the reconciler, which discards this error
and proceeds with a MAC-only reservation. -/
theorem getLease_absence_returnsNotFoundError
    (send : GoRequest → Except String GoResponse) (mac : String)
    (hmac : goCanon mac ≠ "")
    (hmiss : (∃ e, send (leaseReq (goCanon mac)) = .error e) ∨
      (∃ resp, send (leaseReq (goCanon mac)) = .ok resp ∧
        (resp.result ≠ 0 ∨ noUsableLeaseArgs (goCanon mac) resp.args)))
    (hfbmiss : (∃ e, send (resvGetByIdReq (goCanon mac)) = .error e) ∨
      (∃ r2, send (resvGetByIdReq (goCanon mac)) = .ok r2 ∧
        (r2.result ≠ 0 ∨ noUsableHostArgs r2.args))) :
    goGetLeaseIPv4ForMAC send mac =
      ("", 0, some ("no lease found for MAC " ++ goCanon mac)) := by
  have hpy := primaryLeaseYield_none (goCanon mac)
    (send (leaseReq (goCanon mac))) hmiss
  have hfby : fallbackLeaseYield (send (resvGetByIdReq (goCanon mac))) =
      none := by
    rcases hfbmiss with ⟨e, he⟩ | ⟨r2, hr2, hcase⟩
    · rw [he]; rfl
    · rw [hr2]
      simp only [fallbackLeaseYield]
      rcases hcase with hres | hnoh
      · rw [if_neg hres]
      · by_cases hres : r2.result = 0
        · rw [if_pos hres]
          unfold noUsableHostArgs at hnoh
          cases hl : govLookup r2.args "hosts" with
          | none => rfl
          | some v =>
            rw [hl] at hnoh
            cases v with
            | vlist hs =>
              have hall : ∀ h ∈ hs, usableHostb h = false := hnoh
              show hostScan hs = none
              rw [hostScan_eq_find hs]
              rw [List.find?_eq_none.mpr (fun h hh => by simp [hall h hh])]
              rfl
            | vnull => rfl
            | vbool b => rfl
            | vnum n => rfl
            | vstr s => rfl
            | vint n => rfl
            | vmap fs => rfl
        · rw [if_neg hres]
  simp only [goGetLeaseIPv4ForMAC]
  rw [if_neg hmac, hpy, hfby]

/-- C1 witness: a remote answering "0 found" to both queries yields the
empty values and the not-found error. -/
theorem getLease_absence_returnsNotFoundError_witness :
    (goCanon "aa:bb:cc:dd:ee:ff" ≠ "") ∧
    goGetLeaseIPv4ForMAC
      (fun r =>
        if r.command = "lease4-get-by-hw-address" then
          .ok ⟨3, "0 IPv4 lease(s) found.", []⟩
        else .ok ⟨3, "0 IPv4 host(s) found.", []⟩)
      "aa:bb:cc:dd:ee:ff" =
      ("", 0, some ("no lease found for MAC " ++ goCanon "aa:bb:cc:dd:ee:ff")) :=
  ⟨by decide,
   getLease_absence_returnsNotFoundError
     (fun r =>
       if r.command = "lease4-get-by-hw-address" then
         .ok ⟨3, "0 IPv4 lease(s) found.", []⟩
       else .ok ⟨3, "0 IPv4 host(s) found.", []⟩)
     "aa:bb:cc:dd:ee:ff" (by decide)
     (Or.inr ⟨⟨3, "0 IPv4 lease(s) found.", []⟩, rfl, Or.inl (by decide)⟩)
     (Or.inr ⟨⟨3, "0 IPv4 host(s) found.", []⟩, rfl, Or.inl (by decide)⟩)⟩

/-- The primary hosts scan of macReservationExists, applied to the
modelled remote's answer (all stored hosts whose hardware address
case-folds to the MAC), answers exactly whether a stored host matches
MAC and subnet. -/
theorem existsScan_on_remote (sid : Int) (mac : String) (st : List KeaHost) :
    existsScanHosts sid mac
      ((st.filter (fun h => goEqFold h.hw mac)).map hostToVal) =
      hostExistsb st mac sid := by
  induction st with
  | nil => rfl
  | cons h t ih =>
    by_cases hEq : goEqFold h.hw mac = true
    · by_cases hSid : h.subnetId = sid
      · simp [List.filter_cons, hEq, existsScanHosts, hostToVal, govLookup,
          hSid, hostExistsb]
      · simp [List.filter_cons, hEq, existsScanHosts, hostToVal, govLookup,
          hSid, hostExistsb, ih]
    · simp only [Bool.not_eq_true] at hEq
      simp [List.filter_cons, hEq, hostExistsb, ih]

/-- macReservationExists against the modelled remote: one
reservation-get-by-id request, no state change, and the answer is
exactly whether a stored host matches MAC and subnet. -/
theorem macExistsRun_eval (st : List KeaHost) (mac : String) (sid : Int)
    (hc : goCanon mac = mac) (hne : mac ≠ "") :
    macReservationExistsRun st mac sid =
      (hostExistsb st mac sid, st, [resvGetByIdReq mac]) := by
  unfold macReservationExistsRun
  rw [hc, if_neg hne]
  simp only [remoteSend, resvGetByIdReq, govLookup]
  simp [existsScan_on_remote]

/-- C3: EnsureReservationForMACIP is idempotent against a remote whose
reservation store changes only through these calls.  When no matching
reservation exists beforehand, two successive calls with the same
(mac, subnetID, ip) issue exactly one reservation-add between them, the
first reports created=true and the second created=false; when a
matching reservation already exists, the first call already reports
created=false and issues no add at all. -/
theorem ensureReservation_idempotent (st0 : List KeaHost) (mac : String)
    (sid : Int) (ip : String) (hc : goCanon mac = mac) (hne : mac ≠ "") :
    (hostExistsb st0 mac sid = false →
      countAdds (ensureReservationRun st0 mac sid ip).2.2 +
        countAdds (ensureReservationRun
          (ensureReservationRun st0 mac sid ip).2.1 mac sid ip).2.2 = 1 ∧
      (ensureReservationRun st0 mac sid ip).1 = .ok true ∧
      (ensureReservationRun
        (ensureReservationRun st0 mac sid ip).2.1 mac sid ip).1 = .ok false) ∧
    (hostExistsb st0 mac sid = true →
      (ensureReservationRun st0 mac sid ip).1 = .ok false ∧
      countAdds (ensureReservationRun st0 mac sid ip).2.2 = 0) := by
  constructor
  · intro habs
    have hrun1 : ensureReservationRun st0 mac sid ip =
        (.ok true,
         st0 ++ [⟨mac, sid,
           if goTrimSpace ip ≠ "" then some (goTrimSpace ip) else none⟩],
         [resvGetByIdReq mac,
          ⟨"reservation-add",
           [("reservation", .vmap
              ([("subnet-id", .vint sid), ("hw-address", .vstr mac)] ++
               (if goTrimSpace ip ≠ "" then
                 [("ip-address", .vstr (goTrimSpace ip))]
                else []))),
            ("operation-target", .vstr "all")]⟩]) := by
      unfold ensureReservationRun
      rw [hc, if_neg hne, macExistsRun_eval st0 mac sid hc hne]
      by_cases hip : goTrimSpace ip ≠ ""
      · simp [habs, remoteSend, govLookup, hip]
      · simp [habs, remoteSend, govLookup, hip]
    have hexists2 : ∀ ipo : Option String,
        hostExistsb (st0 ++ [⟨mac, sid, ipo⟩]) mac sid = true := by
      intro ipo
      simp [hostExistsb, goEqFold]
    have hrun2 : ensureReservationRun
        (ensureReservationRun st0 mac sid ip).2.1 mac sid ip =
        (.ok false,
         st0 ++ [⟨mac, sid,
           if goTrimSpace ip ≠ "" then some (goTrimSpace ip) else none⟩],
         [resvGetByIdReq mac]) := by
      rw [hrun1]
      unfold ensureReservationRun
      rw [hc, if_neg hne, macExistsRun_eval _ mac sid hc hne]
      simp [hexists2]
    rw [hrun2, hrun1]
    refine ⟨?_, rfl, rfl⟩
    simp [countAdds, resvGetByIdReq]
  · intro hex
    have hrun1 : ensureReservationRun st0 mac sid ip =
        (.ok false, st0, [resvGetByIdReq mac]) := by
      unfold ensureReservationRun
      rw [hc, if_neg hne, macExistsRun_eval st0 mac sid hc hne]
      simp [hex]
    rw [hrun1]
    exact ⟨rfl, by simp [countAdds, resvGetByIdReq]⟩

/-- C3 witness: a fresh remote store, then a pre-populated one. -/
theorem ensureReservation_idempotent_witness :
    (goCanon "aa:bb:cc:00:11:22" = "aa:bb:cc:00:11:22") ∧
    ((hostExistsb [] "aa:bb:cc:00:11:22" 7 = false →
      countAdds (ensureReservationRun [] "aa:bb:cc:00:11:22" 7 "100.64.0.9").2.2 +
        countAdds (ensureReservationRun
          (ensureReservationRun [] "aa:bb:cc:00:11:22" 7 "100.64.0.9").2.1
          "aa:bb:cc:00:11:22" 7 "100.64.0.9").2.2 = 1 ∧
      (ensureReservationRun [] "aa:bb:cc:00:11:22" 7 "100.64.0.9").1 = .ok true ∧
      (ensureReservationRun
        (ensureReservationRun [] "aa:bb:cc:00:11:22" 7 "100.64.0.9").2.1
        "aa:bb:cc:00:11:22" 7 "100.64.0.9").1 = .ok false) ∧
    (hostExistsb [] "aa:bb:cc:00:11:22" 7 = true →
      (ensureReservationRun [] "aa:bb:cc:00:11:22" 7 "100.64.0.9").1 = .ok false ∧
      countAdds (ensureReservationRun [] "aa:bb:cc:00:11:22" 7 "100.64.0.9").2.2
        = 0)) ∧
    ((hostExistsb [⟨"aa:bb:cc:00:11:22", 7, none⟩] "aa:bb:cc:00:11:22" 7 = false →
      countAdds (ensureReservationRun [⟨"aa:bb:cc:00:11:22", 7, none⟩]
          "aa:bb:cc:00:11:22" 7 "").2.2 +
        countAdds (ensureReservationRun
          (ensureReservationRun [⟨"aa:bb:cc:00:11:22", 7, none⟩]
            "aa:bb:cc:00:11:22" 7 "").2.1 "aa:bb:cc:00:11:22" 7 "").2.2 = 1 ∧
      (ensureReservationRun [⟨"aa:bb:cc:00:11:22", 7, none⟩]
        "aa:bb:cc:00:11:22" 7 "").1 = .ok true ∧
      (ensureReservationRun
        (ensureReservationRun [⟨"aa:bb:cc:00:11:22", 7, none⟩]
          "aa:bb:cc:00:11:22" 7 "").2.1 "aa:bb:cc:00:11:22" 7 "").1 =
        .ok false) ∧
    (hostExistsb [⟨"aa:bb:cc:00:11:22", 7, none⟩] "aa:bb:cc:00:11:22" 7 = true →
      (ensureReservationRun [⟨"aa:bb:cc:00:11:22", 7, none⟩]
        "aa:bb:cc:00:11:22" 7 "").1 = .ok false ∧
      countAdds (ensureReservationRun [⟨"aa:bb:cc:00:11:22", 7, none⟩]
        "aa:bb:cc:00:11:22" 7 "").2.2 = 0)) :=
  ⟨by decide,
   ensureReservation_idempotent [] "aa:bb:cc:00:11:22" 7 "100.64.0.9"
     (by decide) (by decide),
   ensureReservation_idempotent [⟨"aa:bb:cc:00:11:22", 7, none⟩]
     "aa:bb:cc:00:11:22" 7 "" (by decide) (by decide)⟩

end KeaOp
